import Mathlib

/-
Verification of the DBSQL permission-migration module
(src/databricks/labs/ucx/workspace_access/redash.py).

The module crawls ACL documents of DBSQL objects (alerts, dashboards,
queries, data sources), rewrites every entry whose group name is under
migration to the chosen destination group, and replaces the remote ACL
wholesale.  The embedding below translates the functions of
`SqlPermissionsSupport` into pure Lean definitions; the Python `assert`
in `_prepare_new_acl` becomes an `Except.error`, and the remote
`dbsql_permissions.get` / `dbsql_permissions.set` calls are modelled as
explicit function arguments and state updates.
-/

namespace Redash

/-- One permission level of a DBSQL ACL entry (`sql.PermissionLevel`
from the vendor SDK; the module never inspects the level, it is carried
through unchanged). -/
inductive PermissionLevel where
  | CAN_EDIT
  | CAN_MANAGE
  | CAN_RUN
  | CAN_USE
  | CAN_VIEW
deriving DecidableEq

/-- One entry of an ACL document (`sql.AccessControl` from the vendor
SDK): an optional group name, an optional user name and an optional
permission level.  `dataclasses.replace(acl_request, group_name=...)`
in the source copies the entry with only `group_name` changed. -/
structure AccessControl where
  group_name : Option String
  user_name : Option String
  permission_level : Option PermissionLevel
deriving DecidableEq

/-- An identity record (`iam.Group` from the vendor SDK); the module
only ever reads its `display_name`, which the SDK types as optional. -/
structure Group where
  display_name : Option String
deriving DecidableEq

/-- Modelled from the spec: one mapping of the migration plan.  The
defining module (`workspace_access/groups.py`) is not part of the
source slice; the spec describes a mapping from a workspace (source)
identity to destination identities, selectable as the backup identity
or the account identity. -/
structure MigrationGroupInfo where
  workspace : Group
  backup : Group
  account : Group
deriving DecidableEq

/-- Modelled from the spec: the destination selector, "identifies which
field of a migration mapping (e.g., backup vs account identity) to use
as the rewrite target".  In the source it is a string attribute name
passed to `getattr(migration_info, destination)`. -/
inductive Destination where
  | backup
  | account
deriving DecidableEq

/-- `getattr(migration_info, destination)`: selects the destination
identity of a migration mapping. -/
def destination_group (mi : MigrationGroupInfo) (d : Destination) : Group :=
  match d with
  | .backup => mi.backup
  | .account => mi.account

/-- Modelled from the spec: the migration plan (`GroupMigrationState`
from the groups module, not part of the source slice).  The module
reads its `groups` list directly and calls its
`get_by_workspace_group_name` method; the method's body is outside the
slice, so it is kept as an abstract field here, with
`mk_migration_state` building the canonical instance the spec
describes. -/
structure GroupMigrationState where
  groups : List MigrationGroupInfo
  get_by_workspace_group_name : Option String → Option MigrationGroupInfo

/-- Modelled from the spec: the canonical migration state, whose lookup
returns the migration info whose workspace display name equals the
queried name ("look up the corresponding migration info; it MUST exist"
— source names are unique within one run, so the first match is the
match). -/
def mk_migration_state (gs : List MigrationGroupInfo) : GroupMigrationState :=
  ⟨gs, fun n => gs.find? (fun g => g.workspace.display_name == n)⟩

/-- The list comprehension
`[g.workspace.display_name for g in migration_state.groups]` used by
both `is_item_relevant` and `_prepare_new_acl`. -/
def workspace_names (ms : GroupMigrationState) : List (Option String) :=
  ms.groups.map (fun g => g.workspace.display_name)

/-- The supported DBSQL object kinds (`sql.ObjectTypePlural` from the
vendor SDK). -/
inductive ObjectTypePlural where
  | alerts
  | dashboards
  | data_sources
  | queries
deriving DecidableEq

/-- A persisted permissions record.  In the source its `raw` field is a
JSON string and every consumer immediately runs
`sql.GetResponse.from_dict(json.loads(item.raw)).access_control_list`;
the record is held here with that parsed entry list (the JSON
round-trip lives in the vendor SDK, outside this slice), and with the
object type already of the enum kind that
`sql.ObjectTypePlural(item.object_type)` produces. -/
structure Permissions where
  object_id : String
  object_type : ObjectTypePlural
  access_control_list : List AccessControl
deriving DecidableEq

/-- `SqlPermissionsSupport.is_item_relevant`: collects the group name of
every entry of the record's ACL, then reports whether any migrating
group's workspace display name occurs among them. -/
def is_item_relevant (item : Permissions) (ms : GroupMigrationState) : Bool :=
  let mentioned_groups := item.access_control_list.map (fun acl => acl.group_name)
  (ms.groups.map (fun info => info.workspace.display_name)).any
    (fun g => mentioned_groups.contains g)

/-- `SqlPermissionsSupport._prepare_new_acl`: walks the entry list in
order; an entry whose group name is one of the migrating workspace
display names is looked up in the migration state and re-emitted with
the selected destination group's display name (the Python `assert` on a
failed lookup becomes `Except.error`); every other entry is appended
unchanged. -/
def prepare_new_acl (acl : List AccessControl) (ms : GroupMigrationState) (d : Destination) :
    Except String (List AccessControl) :=
  match acl with
  | [] => Except.ok []
  | acl_request :: rest =>
    if acl_request.group_name ∈ workspace_names ms then
      match ms.get_by_workspace_group_name acl_request.group_name with
      | none => Except.error "Group is not in the migration groups provider"
      | some migration_info =>
        (prepare_new_acl rest ms d).map
          (fun acc =>
            { acl_request with
                group_name := (destination_group migration_info d).display_name } :: acc)
    else
      (prepare_new_acl rest ms d).map (fun acc => acl_request :: acc)

/-- A structured control-plane error (`DatabricksError` from the vendor
SDK); the module only reads its `error_code`. -/
structure DatabricksError where
  error_code : String
deriving DecidableEq

/-- The payload of a successful `dbsql_permissions.get`
(`sql.GetResponse`); the module only reads its `access_control_list`. -/
structure GetResponse where
  access_control_list : List AccessControl
deriving DecidableEq

/-- Outcome of the remote `dbsql_permissions.get` call: the response,
or a raised `DatabricksError`. -/
inductive GetResult where
  | success (r : GetResponse)
  | failure (e : DatabricksError)
deriving DecidableEq

/-- `SqlPermissionsSupport._safe_get_dbsql_permissions`: runs the remote
get (passed in as a function, standing for
`self._ws.dbsql_permissions.get`); on a `DatabricksError` whose code is
one of the three soft-skip codes it returns `none` (after logging a
warning, a side effect outside this embedding), every other error is
re-raised (`Except.error`). -/
def safe_get_dbsql_permissions (get : ObjectTypePlural → String → GetResult)
    (object_type : ObjectTypePlural) (object_id : String) :
    Except DatabricksError (Option GetResponse) :=
  match get object_type object_id with
  | .success r => Except.ok (some r)
  | .failure e =>
    if e.error_code ∈ ["RESOURCE_DOES_NOT_EXIST", "RESOURCE_NOT_FOUND", "PERMISSION_DENIED"]
    then Except.ok none
    else Except.error e

/-- The remote permission state: the ACL document stored per
(object kind, object id), as the control plane keeps it. -/
def RemoteStore := ObjectTypePlural × String → Option (List AccessControl)

/-- `SqlPermissionsSupport._applier_task`: the DBSQL permissions API has
only a SET operation, so the call overwrites the stored ACL document of
the addressed object wholesale and leaves every other object alone. -/
def applier_task (store : RemoteStore) (object_type : ObjectTypePlural)
    (object_id : String) (acl : List AccessControl) : RemoteStore :=
  fun k => if k = (object_type, object_id) then some acl else store k

/-- One invocation of the remote set operation, as
`partial(self._applier_task, object_type=..., object_id=..., acl=...)`
captures it. -/
structure SetCall where
  object_type : ObjectTypePlural
  object_id : String
  acl : List AccessControl
deriving DecidableEq

/-- `SqlPermissionsSupport._get_apply_task`: rewrites the record's ACL
with `prepare_new_acl` and returns the single pending set call that the
returned `partial` will perform. -/
def get_apply_task (item : Permissions) (ms : GroupMigrationState) (d : Destination) :
    Except String SetCall :=
  (prepare_new_acl item.access_control_list ms d).map
    (fun new_acl => ⟨item.object_type, item.object_id, new_acl⟩)

/-
Structural lemmas about the embedding, shared by the theorems below.
-/

/-- An `Except.map` that produced `ok` did so from an `ok`. -/
theorem except_map_ok {ε α β : Type} (f : α → β) (x : Except ε α) (out : β)
    (h : x.map f = Except.ok out) : ∃ y, x = Except.ok y ∧ out = f y := by
  cases x with
  | error e => simp [Except.map] at h
  | ok y =>
    refine ⟨y, rfl, ?_⟩
    simpa [Except.map] using h.symm

/-- Characterization of one loop iteration of `prepare_new_acl`: a
successful run on `a :: rest` emits one entry for `a` — unchanged when
its group name is not a migrating workspace name, the rewritten copy
when it is and the lookup succeeds — followed by a successful run on
`rest`. -/
theorem prepare_ok_cons (a : AccessControl) (rest : List AccessControl)
    (ms : GroupMigrationState) (d : Destination) (out : List AccessControl)
    (h : prepare_new_acl (a :: rest) ms d = Except.ok out) :
    ∃ b tail, out = b :: tail ∧ prepare_new_acl rest ms d = Except.ok tail ∧
      ((a.group_name ∉ workspace_names ms ∧ b = a) ∨
       (a.group_name ∈ workspace_names ms ∧
         ∃ mi, ms.get_by_workspace_group_name a.group_name = some mi ∧
           b = { a with group_name := (destination_group mi d).display_name })) := by
  rw [prepare_new_acl] at h
  by_cases hm : a.group_name ∈ workspace_names ms
  · rw [if_pos hm] at h
    cases hg : ms.get_by_workspace_group_name a.group_name with
    | none => rw [hg] at h; exact absurd h (by simp)
    | some mi =>
      rw [hg] at h
      obtain ⟨tail, htail, hout⟩ := except_map_ok _ _ _ h
      exact ⟨_, tail, hout, htail, Or.inr ⟨hm, mi, rfl, rfl⟩⟩
  · rw [if_neg hm] at h
    obtain ⟨tail, htail, hout⟩ := except_map_ok _ _ _ h
    exact ⟨a, tail, hout, htail, Or.inl ⟨hm, rfl⟩⟩

/-- A successful run of `prepare_new_acl` on the empty ACL emits the
empty ACL. -/
theorem prepare_ok_nil (ms : GroupMigrationState) (d : Destination) (out : List AccessControl)
    (h : prepare_new_acl [] ms d = Except.ok out) : out = [] := by
  simpa [prepare_new_acl] using h.symm

/-- On a canonical migration state the lookup succeeds for every
migrating workspace display name (membership and lookup run the same
comparison over the same list). -/
theorem mk_lookup_of_mem (gs : List MigrationGroupInfo) (n : Option String)
    (h : n ∈ workspace_names (mk_migration_state gs)) :
    ∃ mi, (mk_migration_state gs).get_by_workspace_group_name n = some mi := by
  simp only [workspace_names, mk_migration_state, List.mem_map] at h
  obtain ⟨g, hg, he⟩ := h
  rw [← Option.isSome_iff_exists]
  simp only [mk_migration_state]
  rw [List.find?_isSome]
  exact ⟨g, hg, by simp [he]⟩

/-- When the lookup succeeds on every migrating workspace name,
`prepare_new_acl` succeeds and returns one entry per input entry. -/
theorem prepare_total (ms : GroupMigrationState)
    (hms : ∀ n, n ∈ workspace_names ms → ∃ mi, ms.get_by_workspace_group_name n = some mi)
    (acl : List AccessControl) (d : Destination) :
    ∃ out, prepare_new_acl acl ms d = Except.ok out ∧ out.length = acl.length := by
  induction acl with
  | nil => exact ⟨[], rfl, rfl⟩
  | cons a rest ih =>
    obtain ⟨tail, htail, hlen⟩ := ih
    by_cases hm : a.group_name ∈ workspace_names ms
    · obtain ⟨mi, hmi⟩ := hms _ hm
      refine ⟨{ a with group_name := (destination_group mi d).display_name } :: tail, ?_, ?_⟩
      · rw [prepare_new_acl, if_pos hm, hmi, htail]; rfl
      · simpa using hlen
    · refine ⟨a :: tail, ?_, by simpa using hlen⟩
      rw [prepare_new_acl, if_neg hm, htail]; rfl

/-- Every successful run of `prepare_new_acl` returns one entry per
input entry. -/
theorem prepare_ok_length (acl : List AccessControl) (ms : GroupMigrationState)
    (d : Destination) (out : List AccessControl)
    (h : prepare_new_acl acl ms d = Except.ok out) : out.length = acl.length := by
  induction acl generalizing out with
  | nil => simp [prepare_ok_nil ms d out h]
  | cons a rest ih =>
    obtain ⟨b, tail, rfl, htail, _⟩ := prepare_ok_cons a rest ms d out h
    simp [ih tail htail]

/-
The claims, one theorem each.
-/

/-- C1: for every ACL entry list, migration state and destination
selector, every entry whose group name equals the workspace display
name of some group in the migration state appears in the output of
`prepare_new_acl` as a copy of that entry whose group name is replaced
by the display name of the destination group selected by the selector,
with all other fields (user name and permission level) unchanged. -/
theorem c1_migrating_rewrite (acl : List AccessControl) (ms : GroupMigrationState)
    (d : Destination) (e : AccessControl) (he : e ∈ acl)
    (hm : e.group_name ∈ workspace_names ms) (mi : MigrationGroupInfo)
    (hmi : ms.get_by_workspace_group_name e.group_name = some mi)
    (out : List AccessControl) (hout : prepare_new_acl acl ms d = Except.ok out) :
    { e with group_name := (destination_group mi d).display_name } ∈ out := by
  induction acl generalizing out with
  | nil => cases he
  | cons a rest ih =>
    obtain ⟨b, tail, rfl, htail, hb⟩ := prepare_ok_cons a rest ms d out hout
    rcases List.mem_cons.mp he with rfl | he2
    · rcases hb with ⟨hnot, _⟩ | ⟨_, mi2, hmi2, rfl⟩
      · exact absurd hm hnot
      · rw [hmi] at hmi2
        cases Option.some.inj hmi2
        exact List.mem_cons_self _ _
    · exact List.mem_cons_of_mem _ (ih he2 tail htail)

/-- Witness for C1: the `eng-ws` entry of the end-to-end scenario is
rewritten to `eng-acct` with its `CAN_RUN` level intact. -/
theorem c1_witness :
    ({ group_name := some "eng-acct", user_name := none,
       permission_level := some PermissionLevel.CAN_RUN } : AccessControl) ∈
      [({ group_name := some "eng-acct", user_name := none,
          permission_level := some PermissionLevel.CAN_RUN } : AccessControl),
       { group_name := none, user_name := some "alice",
         permission_level := some PermissionLevel.CAN_VIEW }] :=
  c1_migrating_rewrite
    [⟨some "eng-ws", none, some .CAN_RUN⟩, ⟨none, some "alice", some .CAN_VIEW⟩]
    (mk_migration_state [⟨⟨some "eng-ws"⟩, ⟨some "eng-ws-backup"⟩, ⟨some "eng-acct"⟩⟩])
    Destination.account ⟨some "eng-ws", none, some .CAN_RUN⟩ (by decide) (by decide)
    ⟨⟨some "eng-ws"⟩, ⟨some "eng-ws-backup"⟩, ⟨some "eng-acct"⟩⟩ rfl
    [⟨some "eng-acct", none, some .CAN_RUN⟩, ⟨none, some "alice", some .CAN_VIEW⟩] rfl

/-- C2: for every ACL entry list, migration state and destination
selector, every entry whose group name does not equal any workspace
display name of the migration state appears unchanged in the output of
`prepare_new_acl`. -/
theorem c2_passthrough (acl : List AccessControl) (ms : GroupMigrationState)
    (d : Destination) (e : AccessControl) (he : e ∈ acl)
    (hm : e.group_name ∉ workspace_names ms)
    (out : List AccessControl) (hout : prepare_new_acl acl ms d = Except.ok out) :
    e ∈ out := by
  induction acl generalizing out with
  | nil => cases he
  | cons a rest ih =>
    obtain ⟨b, tail, rfl, htail, hb⟩ := prepare_ok_cons a rest ms d out hout
    rcases List.mem_cons.mp he with rfl | he2
    · rcases hb with ⟨_, rfl⟩ | ⟨hin, _⟩
      · exact List.mem_cons_self _ _
      · exact absurd hin hm
    · exact List.mem_cons_of_mem _ (ih he2 tail htail)

/-- Witness for C2: the `alice` entry of the end-to-end scenario passes
through unchanged. -/
theorem c2_witness :
    ({ group_name := none, user_name := some "alice",
       permission_level := some PermissionLevel.CAN_VIEW } : AccessControl) ∈
      [({ group_name := some "eng-acct", user_name := none,
          permission_level := some PermissionLevel.CAN_RUN } : AccessControl),
       { group_name := none, user_name := some "alice",
         permission_level := some PermissionLevel.CAN_VIEW }] :=
  c2_passthrough
    [⟨some "eng-ws", none, some .CAN_RUN⟩, ⟨none, some "alice", some .CAN_VIEW⟩]
    (mk_migration_state [⟨⟨some "eng-ws"⟩, ⟨some "eng-ws-backup"⟩, ⟨some "eng-acct"⟩⟩])
    Destination.account ⟨none, some "alice", some .CAN_VIEW⟩ (by decide) (by decide)
    [⟨some "eng-acct", none, some .CAN_RUN⟩, ⟨none, some "alice", some .CAN_VIEW⟩] rfl

/-- C3: the output of `prepare_new_acl` has exactly as many entries as
the input list — every successful run returns `acl.length` entries, and
on a canonical migration state the run always succeeds with that
length. -/
theorem c3_entry_count :
    (∀ (acl : List AccessControl) (ms : GroupMigrationState) (d : Destination)
       (out : List AccessControl),
       prepare_new_acl acl ms d = Except.ok out → out.length = acl.length) ∧
    (∀ (gs : List MigrationGroupInfo) (acl : List AccessControl) (d : Destination),
       ∃ out, prepare_new_acl acl (mk_migration_state gs) d = Except.ok out ∧
         out.length = acl.length) :=
  ⟨prepare_ok_length,
   fun gs acl d => prepare_total (mk_migration_state gs) (mk_lookup_of_mem gs) acl d⟩

/-- Witness for C3: the rewritten scenario ACL keeps its two entries. -/
theorem c3_witness :
    ([⟨some "eng-acct", none, some .CAN_RUN⟩,
      ⟨none, some "alice", some .CAN_VIEW⟩] : List AccessControl).length =
      ([⟨some "eng-ws", none, some .CAN_RUN⟩,
        ⟨none, some "alice", some .CAN_VIEW⟩] : List AccessControl).length :=
  c3_entry_count.1
    [⟨some "eng-ws", none, some .CAN_RUN⟩, ⟨none, some "alice", some .CAN_VIEW⟩]
    (mk_migration_state [⟨⟨some "eng-ws"⟩, ⟨some "eng-ws-backup"⟩, ⟨some "eng-acct"⟩⟩])
    Destination.account
    [⟨some "eng-acct", none, some .CAN_RUN⟩, ⟨none, some "alice", some .CAN_VIEW⟩] rfl

/-- C4: `is_item_relevant` returns true exactly when at least one entry
of the record's ACL has a group name equal to the workspace display
name of some group in the migration state; in particular there are no
false negatives for a record containing a migrating principal. -/
theorem c4_relevance_iff (item : Permissions) (ms : GroupMigrationState) :
    is_item_relevant item ms = true ↔
      ∃ e ∈ item.access_control_list, ∃ g ∈ ms.groups,
        e.group_name = g.workspace.display_name := by
  simp only [is_item_relevant, List.any_eq_true, List.mem_map, List.contains,
    List.elem_iff, List.mem_map]
  constructor
  · rintro ⟨n, ⟨g, hg, rfl⟩, e, he, hge⟩
    exact ⟨e, he, g, hg, hge⟩
  · rintro ⟨e, he, g, hg, hge⟩
    exact ⟨g.workspace.display_name, ⟨g, hg, rfl⟩, e, he, hge⟩

/-- C5: `safe_get_dbsql_permissions` returns the response when the
remote get succeeds, swallows a `DatabricksError` whose code is
RESOURCE_DOES_NOT_EXIST, RESOURCE_NOT_FOUND or PERMISSION_DENIED by
returning `none`, and re-raises every `DatabricksError` with any other
code. -/
theorem c5_safe_get (get : ObjectTypePlural → String → GetResult)
    (object_type : ObjectTypePlural) (object_id : String) :
    (∀ r, get object_type object_id = GetResult.success r →
      safe_get_dbsql_permissions get object_type object_id = Except.ok (some r)) ∧
    (∀ e, get object_type object_id = GetResult.failure e →
      e.error_code ∈ ["RESOURCE_DOES_NOT_EXIST", "RESOURCE_NOT_FOUND", "PERMISSION_DENIED"] →
      safe_get_dbsql_permissions get object_type object_id = Except.ok none) ∧
    (∀ e, get object_type object_id = GetResult.failure e →
      e.error_code ∉ ["RESOURCE_DOES_NOT_EXIST", "RESOURCE_NOT_FOUND", "PERMISSION_DENIED"] →
      safe_get_dbsql_permissions get object_type object_id = Except.error e) := by
  refine ⟨fun r h => ?_, fun e h hc => ?_, fun e h hc => ?_⟩
  · rw [safe_get_dbsql_permissions, h]
  · rw [safe_get_dbsql_permissions, h]
    simp only [if_pos hc]
  · rw [safe_get_dbsql_permissions, h]
    simp only [if_neg hc]

/-- Witness for C5: one concrete get per branch — a success, a
PERMISSION_DENIED error and an INTERNAL_ERROR error. -/
theorem c5_witness :
    safe_get_dbsql_permissions (fun _ _ => GetResult.success ⟨[]⟩) ObjectTypePlural.queries "q1" =
      Except.ok (some ⟨[]⟩) ∧
    safe_get_dbsql_permissions (fun _ _ => GetResult.failure ⟨"PERMISSION_DENIED"⟩)
      ObjectTypePlural.queries "q1" = Except.ok none ∧
    safe_get_dbsql_permissions (fun _ _ => GetResult.failure ⟨"INTERNAL_ERROR"⟩)
      ObjectTypePlural.queries "q1" = Except.error ⟨"INTERNAL_ERROR"⟩ :=
  ⟨(c5_safe_get (fun _ _ => GetResult.success ⟨[]⟩) .queries "q1").1 ⟨[]⟩ rfl,
   (c5_safe_get (fun _ _ => GetResult.failure ⟨"PERMISSION_DENIED"⟩) .queries "q1").2.1
     ⟨"PERMISSION_DENIED"⟩ rfl (by decide),
   (c5_safe_get (fun _ _ => GetResult.failure ⟨"INTERNAL_ERROR"⟩) .queries "q1").2.2
     ⟨"INTERNAL_ERROR"⟩ rfl (by decide)⟩

/-- C6: when an entry's group name is a migrating workspace display
name but `get_by_workspace_group_name` returns no migration info,
`prepare_new_acl` fails fast with the assertion message instead of
skipping or passing the entry through; and whenever the lookup succeeds
on every migrating workspace display name — which the canonical lookup
does — that failure branch is unreachable and the run succeeds. -/
theorem c6_invariant_assertion :
    (∀ (a : AccessControl) (rest : List AccessControl) (ms : GroupMigrationState)
       (d : Destination), a.group_name ∈ workspace_names ms →
       ms.get_by_workspace_group_name a.group_name = none →
       prepare_new_acl (a :: rest) ms d =
         Except.error "Group is not in the migration groups provider") ∧
    (∀ (ms : GroupMigrationState),
       (∀ n, n ∈ workspace_names ms → ∃ mi, ms.get_by_workspace_group_name n = some mi) →
       ∀ (acl : List AccessControl) (d : Destination),
         ∃ out, prepare_new_acl acl ms d = Except.ok out) := by
  constructor
  · intro a rest ms d hm hnone
    rw [prepare_new_acl, if_pos hm, hnone]
  · intro ms hms acl d
    obtain ⟨out, hout, _⟩ := prepare_total ms hms acl d
    exact ⟨out, hout⟩

/-- Witness for C6: a state whose lookup always fails makes the run
abort with the assertion message, and the canonical state over the same
groups list makes it succeed. -/
theorem c6_witness :
    prepare_new_acl [⟨some "g", none, none⟩]
      ⟨[⟨⟨some "g"⟩, ⟨some "g-backup"⟩, ⟨some "g-acct"⟩⟩], fun _ => none⟩
      Destination.account = Except.error "Group is not in the migration groups provider" ∧
    ∃ out, prepare_new_acl [⟨some "g", none, none⟩]
      (mk_migration_state [⟨⟨some "g"⟩, ⟨some "g-backup"⟩, ⟨some "g-acct"⟩⟩])
      Destination.account = Except.ok out :=
  ⟨c6_invariant_assertion.1 ⟨some "g", none, none⟩ []
      ⟨[⟨⟨some "g"⟩, ⟨some "g-backup"⟩, ⟨some "g-acct"⟩⟩], fun _ => none⟩
      Destination.account (by decide) rfl,
   c6_invariant_assertion.2
      (mk_migration_state [⟨⟨some "g"⟩, ⟨some "g-backup"⟩, ⟨some "g-acct"⟩⟩])
      (mk_lookup_of_mem [⟨⟨some "g"⟩, ⟨some "g-backup"⟩, ⟨some "g-acct"⟩⟩])
      [⟨some "g", none, none⟩] Destination.account⟩

/-- C7: `applier_task` replaces the stored ACL of the addressed object
wholesale, and it is idempotent: applying the same ACL twice leaves the
remote store identical to applying it once. -/
theorem c7_apply_idempotent :
    (∀ (store : RemoteStore) (object_type : ObjectTypePlural) (object_id : String)
       (acl : List AccessControl),
       applier_task store object_type object_id acl (object_type, object_id) = some acl) ∧
    (∀ (store : RemoteStore) (object_type : ObjectTypePlural) (object_id : String)
       (acl : List AccessControl),
       applier_task (applier_task store object_type object_id acl) object_type object_id acl =
         applier_task store object_type object_id acl) := by
  constructor
  · intro store ot oid acl
    simp [applier_task]
  · intro store ot oid acl
    funext k
    by_cases hk : k = (ot, oid) <;> simp [applier_task, hk]

/-- C8: on the end-to-end scenario — ACL with a `CAN_RUN` grant for the
group `eng-ws` and a `CAN_VIEW` grant for the user `alice`, migration
state mapping workspace group `eng-ws` to account group `eng-acct` —
`prepare_new_acl` yields exactly the rewritten two-entry list, and the
apply task is the single set call carrying exactly that list. -/
theorem c8_scenario :
    prepare_new_acl
      [⟨some "eng-ws", none, some .CAN_RUN⟩, ⟨none, some "alice", some .CAN_VIEW⟩]
      (mk_migration_state [⟨⟨some "eng-ws"⟩, ⟨some "eng-ws-backup"⟩, ⟨some "eng-acct"⟩⟩])
      Destination.account =
      Except.ok [⟨some "eng-acct", none, some .CAN_RUN⟩,
                 ⟨none, some "alice", some .CAN_VIEW⟩] ∧
    get_apply_task
      ⟨"q1", .queries,
        [⟨some "eng-ws", none, some .CAN_RUN⟩, ⟨none, some "alice", some .CAN_VIEW⟩]⟩
      (mk_migration_state [⟨⟨some "eng-ws"⟩, ⟨some "eng-ws-backup"⟩, ⟨some "eng-acct"⟩⟩])
      Destination.account =
      Except.ok ⟨.queries, "q1",
        [⟨some "eng-acct", none, some .CAN_RUN⟩, ⟨none, some "alice", some .CAN_VIEW⟩]⟩ :=
  ⟨rfl, rfl⟩

/-- Counterexample to C9 as stated: mapping group `a` to account group
`b` rewrites the single entry to the principal `b`, which occurs
nowhere in the input ACL — the output does carry a principal name that
is not already present in the input. -/
theorem c9_counterexample :
    prepare_new_acl [⟨some "a", none, some .CAN_RUN⟩]
      (mk_migration_state [⟨⟨some "a"⟩, ⟨some "a-backup"⟩, ⟨some "b"⟩⟩])
      Destination.account = Except.ok [⟨some "b", none, some .CAN_RUN⟩] ∧
    (some "b") ∉ ([⟨some "a", none, some .CAN_RUN⟩] : List AccessControl).map
      AccessControl.group_name ∧
    (some "b") ∉ ([⟨some "a", none, some .CAN_RUN⟩] : List AccessControl).map
      AccessControl.user_name :=
  ⟨rfl, by decide, by decide⟩

/-- C9 as amended: the rewrite fabricates no grants — every entry of
the output of `prepare_new_acl` is either an input entry unchanged, or
a copy of an input entry whose group name is replaced by the display
name of the destination group that the migration-state lookup returns
for it; no other grant is ever produced. -/
theorem c9_no_fabrication (acl : List AccessControl) (ms : GroupMigrationState)
    (d : Destination) (out : List AccessControl)
    (hout : prepare_new_acl acl ms d = Except.ok out) :
    ∀ e ∈ out, e ∈ acl ∨
      ∃ e2 ∈ acl, ∃ mi, ms.get_by_workspace_group_name e2.group_name = some mi ∧
        e = { e2 with group_name := (destination_group mi d).display_name } := by
  induction acl generalizing out with
  | nil =>
    rw [prepare_ok_nil ms d out hout]
    intro e he
    cases he
  | cons a rest ih =>
    obtain ⟨b, tail, rfl, htail, hb⟩ := prepare_ok_cons a rest ms d out hout
    intro e he
    rcases List.mem_cons.mp he with rfl | he2
    · rcases hb with ⟨_, rfl⟩ | ⟨_, mi, hmi, rfl⟩
      · exact Or.inl (List.mem_cons_self _ _)
      · exact Or.inr ⟨a, List.mem_cons_self _ _, mi, hmi, rfl⟩
    · rcases ih tail htail e he2 with h | ⟨e2, he3, mi, hmi, heq⟩
      · exact Or.inl (List.mem_cons_of_mem _ h)
      · exact Or.inr ⟨e2, List.mem_cons_of_mem _ he3, mi, hmi, heq⟩

/-- Witness for the amended C9, at the counterexample's input: the
rewritten `b` entry is accounted for as the rewritten copy of the `a`
entry. -/
theorem c9_witness :
    (⟨some "b", none, some .CAN_RUN⟩ : AccessControl) ∈
        ([⟨some "a", none, some .CAN_RUN⟩] : List AccessControl) ∨
      ∃ e2 ∈ ([⟨some "a", none, some .CAN_RUN⟩] : List AccessControl),
        ∃ mi, (mk_migration_state
            [⟨⟨some "a"⟩, ⟨some "a-backup"⟩, ⟨some "b"⟩⟩]).get_by_workspace_group_name
            e2.group_name = some mi ∧
          (⟨some "b", none, some .CAN_RUN⟩ : AccessControl) =
            { e2 with group_name := (destination_group mi Destination.account).display_name } :=
  c9_no_fabrication [⟨some "a", none, some .CAN_RUN⟩]
    (mk_migration_state [⟨⟨some "a"⟩, ⟨some "a-backup"⟩, ⟨some "b"⟩⟩])
    Destination.account [⟨some "b", none, some .CAN_RUN⟩] rfl
    ⟨some "b", none, some .CAN_RUN⟩ (by decide)

/-- C10: `prepare_new_acl` preserves input order positionwise — entry
`i` of the output is entry `i` of the input when its group name is not
under migration, and the rewritten copy of entry `i` when it is;
strictly stronger than the order freedom the spec allows. -/
theorem c10_positionwise (acl : List AccessControl) (ms : GroupMigrationState)
    (d : Destination) (out : List AccessControl)
    (hout : prepare_new_acl acl ms d = Except.ok out) (i : Nat) (hi : i < acl.length) :
    ∃ ho : i < out.length,
      ((acl.get ⟨i, hi⟩).group_name ∉ workspace_names ms →
        out.get ⟨i, ho⟩ = acl.get ⟨i, hi⟩) ∧
      ((acl.get ⟨i, hi⟩).group_name ∈ workspace_names ms →
        ∀ mi, ms.get_by_workspace_group_name (acl.get ⟨i, hi⟩).group_name = some mi →
          out.get ⟨i, ho⟩ =
            { acl.get ⟨i, hi⟩ with
                group_name := (destination_group mi d).display_name }) := by
  induction acl generalizing out i with
  | nil => exact absurd hi (Nat.not_lt_zero i)
  | cons a rest ih =>
    obtain ⟨b, tail, rfl, htail, hb⟩ := prepare_ok_cons a rest ms d out hout
    cases i with
    | zero =>
      refine ⟨Nat.succ_pos _, ?_, ?_⟩
      · intro hnm
        have hnm2 : a.group_name ∉ workspace_names ms := hnm
        show b = a
        rcases hb with ⟨_, rfl⟩ | ⟨hin, _⟩
        · rfl
        · exact absurd hin hnm2
      · intro hin mi hmi
        have hin2 : a.group_name ∈ workspace_names ms := hin
        have hmi2 : ms.get_by_workspace_group_name a.group_name = some mi := hmi
        show b = { a with group_name := (destination_group mi d).display_name }
        rcases hb with ⟨hnot, _⟩ | ⟨_, mi3, hmi3, rfl⟩
        · exact absurd hin2 hnot
        · rw [hmi2] at hmi3
          cases Option.some.inj hmi3
          rfl
    | succ j =>
      have hj : j < rest.length := Nat.lt_of_succ_lt_succ hi
      obtain ⟨ho, h1, h2⟩ := ih tail htail j hj
      exact ⟨Nat.succ_lt_succ ho, h1, h2⟩

/-- Witness for C10 at index 0 of the end-to-end scenario. -/
theorem c10_witness :
    ∃ ho : 0 < ([⟨some "eng-acct", none, some .CAN_RUN⟩,
                 ⟨none, some "alice", some .CAN_VIEW⟩] : List AccessControl).length,
      ((([⟨some "eng-ws", none, some .CAN_RUN⟩,
          ⟨none, some "alice", some .CAN_VIEW⟩] : List AccessControl).get
            ⟨0, by decide⟩).group_name ∉
          workspace_names (mk_migration_state
            [⟨⟨some "eng-ws"⟩, ⟨some "eng-ws-backup"⟩, ⟨some "eng-acct"⟩⟩]) →
        ([⟨some "eng-acct", none, some .CAN_RUN⟩,
          ⟨none, some "alice", some .CAN_VIEW⟩] : List AccessControl).get ⟨0, ho⟩ =
          ([⟨some "eng-ws", none, some .CAN_RUN⟩,
            ⟨none, some "alice", some .CAN_VIEW⟩] : List AccessControl).get ⟨0, by decide⟩) ∧
      ((([⟨some "eng-ws", none, some .CAN_RUN⟩,
          ⟨none, some "alice", some .CAN_VIEW⟩] : List AccessControl).get
            ⟨0, by decide⟩).group_name ∈
          workspace_names (mk_migration_state
            [⟨⟨some "eng-ws"⟩, ⟨some "eng-ws-backup"⟩, ⟨some "eng-acct"⟩⟩]) →
        ∀ mi, (mk_migration_state
            [⟨⟨some "eng-ws"⟩, ⟨some "eng-ws-backup"⟩,
              ⟨some "eng-acct"⟩⟩]).get_by_workspace_group_name
            ((([⟨some "eng-ws", none, some .CAN_RUN⟩,
                ⟨none, some "alice", some .CAN_VIEW⟩] : List AccessControl).get
                  ⟨0, by decide⟩).group_name) = some mi →
          ([⟨some "eng-acct", none, some .CAN_RUN⟩,
            ⟨none, some "alice", some .CAN_VIEW⟩] : List AccessControl).get ⟨0, ho⟩ =
            { ([⟨some "eng-ws", none, some .CAN_RUN⟩,
                ⟨none, some "alice", some .CAN_VIEW⟩] : List AccessControl).get
                  ⟨0, by decide⟩ with
                group_name := (destination_group mi Destination.account).display_name }) :=
  c10_positionwise
    [⟨some "eng-ws", none, some .CAN_RUN⟩, ⟨none, some "alice", some .CAN_VIEW⟩]
    (mk_migration_state [⟨⟨some "eng-ws"⟩, ⟨some "eng-ws-backup"⟩, ⟨some "eng-acct"⟩⟩])
    Destination.account
    [⟨some "eng-acct", none, some .CAN_RUN⟩, ⟨none, some "alice", some .CAN_VIEW⟩]
    rfl 0 (by decide)

end Redash
